import Mathlib

/-!
Verification of the EmoRecCloud annotation pipeline core.

Shallow embedding of the core logic of `src/main.py`:

* the tag parsing of ASR output (lines 85–104),
* the segment extractor `extract_segment` (lines 45–49) together with
  Python slice semantics,
* the emotion-label selection (`scores.index(max(scores))`, lines 56–57
  and 82–83),
* the orchestrator `process_audio_file` (lines 51–113) with the external
  models (VAD, ASR, emotion classifier) as opaque oracles,
* the result-file write (lines 106–108) and the `.wav` cleanup loop
  (lines 111–113).

Strings are embedded as `List Char`; Python floats as `ℚ`.
-/

namespace EmoRec

/-- Splitting a character list on the two-character separator `a b`,
left to right, non-overlapping — the behaviour of Python's
`str.split(sep)` for a two-character separator such as `'<|'` or `'|>'`. -/
def splitOn2 (a b : Char) : List Char → List (List Char)
  | [] => [[]]
  | [c] => [[c]]
  | c :: d :: rest =>
    if c = a ∧ d = b then
      [] :: splitOn2 a b rest
    else
      match splitOn2 a b (d :: rest) with
      | [] => [[c]]
      | p :: ps => (c :: p) :: ps

/-- Whether the two-character sequence `a b` occurs in the list —
Python's `sep in s` test for a two-character `sep`. -/
def containsSeq2 (a b : Char) : List Char → Bool
  | c :: d :: rest => (c = a ∧ d = b : Bool) || containsSeq2 a b (d :: rest)
  | _ => false

/-- The whitespace characters removed by Python's `str.strip()`
(restricted to the ASCII ones). -/
def isPySpace (c : Char) : Bool :=
  c = ' ' || c = '\t' || c = '\n' || c = '\r' || c = '\x0b' || c = '\x0c'

/-- Python's `str.strip()`: remove whitespace from both ends. -/
def pyStrip (s : List Char) : List Char :=
  ((s.dropWhile isPySpace).reverse.dropWhile isPySpace).reverse

/-- Lines 85–89 of `src/main.py`:
`parts = text_content.split('<|')`, then for each part containing `'|>'`
append `part.split('|>')[0].strip()` to `extracted_info`. -/
def extractedInfo (textContent : List Char) : List (List Char) :=
  ((splitOn2 '<' '|' textContent).filter
      (fun part => containsSeq2 '|' '>' part)).map
    (fun part => pyStrip ((splitOn2 '|' '>' part).headD []))

/-- The fields the tag-parsing step of `process_audio_file` extracts from a
raw annotation string (lines 91–96 of `src/main.py`): `language`,
`audio_type`, `with_or_wo_itn` and the trailing plain `text`. -/
structure ParsedTag where
  language : List Char
  audioType : List Char
  itnFlag : List Char
  text : List Char
deriving DecidableEq, Repr

/-- Lines 85–96 of `src/main.py`: parse the raw annotation string; `none`
when fewer than 4 fields were extracted (in which case the caller emits no
record for the segment). The plain text is `text_content.split('|>')[-1].strip()`. -/
def parseTagString (textContent : List Char) : Option ParsedTag :=
  let info := extractedInfo textContent
  if 4 ≤ info.length then
    some { language := info.getD 0 []
           audioType := info.getD 2 []
           itnFlag := info.getD 3 []
           text := pyStrip ((splitOn2 '|' '>' textContent).getLastD []) }
  else
    none

/-- Joining a list of parts with a separator between consecutive parts —
the inverse of splitting. -/
def joinSep (sep : List Char) : List (List Char) → List Char
  | [] => []
  | [p] => p
  | p :: q :: rest => p ++ sep ++ joinSep sep (q :: rest)

theorem splitOn2_ne_nil (a b : Char) : (s : List Char) → splitOn2 a b s ≠ []
  | [] => by simp [splitOn2]
  | [c] => by simp [splitOn2]
  | c :: d :: rest => by
    by_cases h : c = a ∧ d = b
    · simp [splitOn2, h]
    · have hne := splitOn2_ne_nil a b (d :: rest)
      obtain ⟨p, ps, hS⟩ := List.exists_cons_of_ne_nil hne
      simp [splitOn2, h, hS]

theorem joinSep_cons (sep : List Char) (c : Char) (p : List Char)
    (ps : List (List Char)) :
    joinSep sep ((c :: p) :: ps) = c :: joinSep sep (p :: ps) := by
  cases ps <;> simp [joinSep]

/-- Splitting on the two-character separator and re-joining with it
reconstructs the original string. -/
theorem joinSep_splitOn2 (a b : Char) :
    (s : List Char) → joinSep (a :: b :: []) (splitOn2 a b s) = s
  | [] => rfl
  | [_] => rfl
  | c :: d :: rest => by
    by_cases h : c = a ∧ d = b
    · obtain ⟨p, ps, hS⟩ := List.exists_cons_of_ne_nil (splitOn2_ne_nil a b rest)
      have ih := joinSep_splitOn2 a b rest
      rw [hS] at ih
      simp [splitOn2, h, hS, joinSep, ih, h.1, h.2]
    · obtain ⟨p, ps, hS⟩ :=
        List.exists_cons_of_ne_nil (splitOn2_ne_nil a b (d :: rest))
      have ih := joinSep_splitOn2 a b (d :: rest)
      rw [hS] at ih
      simp only [splitOn2, if_neg h, hS, joinSep_cons, ih]

/-- The first part produced by splitting a nonempty list is either empty or
starts with the first character of the list. -/
theorem splitOn2_head_shape (a b : Char) (x : Char) (xs : List Char) :
    (splitOn2 a b (x :: xs)).headD [] = [] ∨
      ∃ t, (splitOn2 a b (x :: xs)).headD [] = x :: t := by
  cases xs with
  | nil => exact Or.inr ⟨[], by simp [splitOn2]⟩
  | cons y rest =>
    by_cases h : x = a ∧ y = b
    · exact Or.inl (by simp [splitOn2, h])
    · obtain ⟨p, ps, hS⟩ :=
        List.exists_cons_of_ne_nil (splitOn2_ne_nil a b (y :: rest))
      exact Or.inr ⟨p, by simp [splitOn2, h, hS]⟩

/-- The last part produced by splitting contains no further occurrence of
the separator: it is everything after the last occurrence. -/
theorem splitOn2_getLast_no_marker (a b : Char) :
    (s : List Char) →
      containsSeq2 a b ((splitOn2 a b s).getLastD []) = false
  | [] => by simp [splitOn2, containsSeq2]
  | [c] => by simp [splitOn2, containsSeq2]
  | c :: d :: rest => by
    by_cases h : c = a ∧ d = b
    · have ih := splitOn2_getLast_no_marker a b rest
      obtain ⟨p, ps, hS⟩ := List.exists_cons_of_ne_nil (splitOn2_ne_nil a b rest)
      rw [hS] at ih
      simpa [splitOn2, h, hS] using ih
    · obtain ⟨p, ps, hS⟩ :=
        List.exists_cons_of_ne_nil (splitOn2_ne_nil a b (d :: rest))
      have ih := splitOn2_getLast_no_marker a b (d :: rest)
      rw [hS] at ih
      cases ps with
      | nil =>
        have hp := splitOn2_head_shape a b d rest
        rw [hS] at hp
        simp only [List.headD_cons] at hp
        simp only [List.getLastD_cons, List.getLastD_nil] at ih
        rcases hp with hp | ⟨t, hp⟩
        · simp [splitOn2, h, hS, hp, containsSeq2]
        · subst hp
          simp [splitOn2, h, hS, containsSeq2, ih]
      | cons q ps' =>
        simp only [List.getLastD_cons] at ih
        simp only [splitOn2, if_neg h, hS, List.getLastD_cons]
        cases ps' with
        | nil => simpa using ih
        | cons q' ps'' => simpa using ih

/-- C1: the raw annotation string is split on the opening marker; each part
containing the closing marker contributes the trimmed text before that
marker as an extracted field. With fewer than 4 fields no record is
produced; with at least 4, language is field 0, audio type is field 2, and
the plain text is everything after the last closing marker, trimmed (the
split's last part reconstructs that suffix and contains no further
marker). The two concrete inputs of the claim behave as stated. -/
theorem tag_parse_spec :
    (∀ s : List Char,
      parseTagString s =
        if 4 ≤ (extractedInfo s).length then
          some { language := (extractedInfo s).getD 0 []
                 audioType := (extractedInfo s).getD 2 []
                 itnFlag := (extractedInfo s).getD 3 []
                 text := pyStrip ((splitOn2 '|' '>' s).getLastD []) }
        else none)
    ∧ (∀ s : List Char,
        joinSep ('|' :: '>' :: []) (splitOn2 '|' '>' s) = s
          ∧ containsSeq2 '|' '>' ((splitOn2 '|' '>' s).getLastD []) = false)
    ∧ parseTagString "<|EN|><|happy|>".data = none
    ∧ parseTagString "<|EN|><|happy|><|speech|><|withitn|>hello".data =
        some { language := "EN".data, audioType := "speech".data,
               itnFlag := "withitn".data, text := "hello".data } := by
  refine ⟨fun s => rfl, fun s => ⟨joinSep_splitOn2 _ _ s,
    splitOn2_getLast_no_marker _ _ s⟩, by decide, by decide⟩

/-- The output of one Emotion Annotator call (`emotion_pipeline(...)[0]`):
index-aligned label and score lists; the float scores are modelled as
rationals. -/
structure EmotionResult where
  labels : List (List Char)
  scores : List ℚ
deriving DecidableEq

/-- Python's `max(l)` for a nonempty list (folding binary `max` over the
list; the default for the empty list is irrelevant, `max` is only called
on nonempty score lists). -/
def pyListMax (l : List ℚ) : ℚ := l.foldl max (l.headD 0)

/-- Python's `l.index(v)`: the index of the first occurrence of `v`. -/
def pyIndex (v : ℚ) : List ℚ → ℕ
  | [] => 0
  | x :: rest => if x = v then 0 else pyIndex v rest + 1

/-- Lines 56–57 and 82–83 of `src/main.py`:
`labels[scores.index(max(scores))]` — the label at the first index of the
maximum score. -/
def bestLabel (r : EmotionResult) : List Char :=
  r.labels.getD (pyIndex (pyListMax r.scores) r.scores) []

theorem foldl_max_le_spec :
    (t : List ℚ) → (a : ℚ) →
      a ≤ t.foldl max a ∧ ∀ x ∈ t, x ≤ t.foldl max a
  | [], a => ⟨le_refl a, by simp⟩
  | b :: t', a => by
    obtain ⟨h1, h2⟩ := foldl_max_le_spec t' (max a b)
    refine ⟨le_trans (le_max_left a b) ?_, ?_⟩
    · simpa using h1
    · intro x hx
      rcases List.mem_cons.mp hx with rfl | hx
      · simpa using le_trans (le_max_right a x) h1
      · simpa using h2 x hx

theorem foldl_max_mem :
    (t : List ℚ) → (a : ℚ) → t.foldl max a = a ∨ t.foldl max a ∈ t
  | [], _ => Or.inl rfl
  | b :: t', a => by
    rcases foldl_max_mem t' (max a b) with h | h
    · rw [List.foldl_cons, h]
      rcases max_choice a b with h' | h'
      · exact Or.inl h'
      · exact Or.inr (by rw [h']; exact List.mem_cons_self b t')
    · exact Or.inr (List.mem_cons_of_mem b (by simpa using h))

theorem pyListMax_cons (h : ℚ) (t : List ℚ) :
    pyListMax (h :: t) = t.foldl max h := by
  simp [pyListMax, max_self]

theorem pyListMax_mem (l : List ℚ) (hl : l ≠ []) : pyListMax l ∈ l := by
  obtain ⟨h, t, rfl⟩ := List.exists_cons_of_ne_nil hl
  rw [pyListMax_cons]
  rcases foldl_max_mem t h with h' | h'
  · rw [h']; exact List.mem_cons_self h t
  · exact List.mem_cons_of_mem h h'

theorem le_pyListMax (l : List ℚ) (hl : l ≠ []) :
    ∀ x ∈ l, x ≤ pyListMax l := by
  obtain ⟨h, t, rfl⟩ := List.exists_cons_of_ne_nil hl
  rw [pyListMax_cons]
  intro x hx
  rcases List.mem_cons.mp hx with rfl | hx
  · exact (foldl_max_le_spec t x).1
  · exact (foldl_max_le_spec t h).2 x hx

theorem pyIndex_spec :
    (l : List ℚ) → (v : ℚ) → v ∈ l →
      pyIndex v l < l.length ∧ l.getD (pyIndex v l) 0 = v ∧
        ∀ k, k < pyIndex v l → l.getD k 0 ≠ v
  | x :: rest, v, hv => by
    by_cases hx : x = v
    · refine ⟨by simp [pyIndex, hx], by simp [pyIndex, hx], ?_⟩
      intro k hk
      simp [pyIndex, hx] at hk
    · have hv' : v ∈ rest := by
        rcases List.mem_cons.mp hv with rfl | hv'
        · exact absurd rfl hx
        · exact hv'
      obtain ⟨ih1, ih2, ih3⟩ := pyIndex_spec rest v hv'
      refine ⟨by simpa [pyIndex, hx] using ih1, by simpa [pyIndex, hx] using ih2, ?_⟩
      intro k hk
      rw [pyIndex, if_neg hx] at hk
      cases k with
      | zero => simpa using hx
      | succ k' => simpa using ih3 k' (by omega)

theorem getD_mem {α : Type} (d : α) :
    (l : List α) → (k : ℕ) → k < l.length → l.getD k d ∈ l
  | x :: t, 0, _ => by simp
  | x :: t, k + 1, h => by
    simpa using Or.inr (getD_mem d t k (by simpa using h))

/-- One VAD detection (an element of `get_speech_ts`'s output): sample
indices at 16 kHz. `stop` models the dictionary's `'end'` key. -/
structure VadSegment where
  start : ℕ
  stop : ℕ
deriving DecidableEq

/-- One row of the JSON result list built by `process_audio_file`: either
the leading `{"Overall Emotion": …}` row or a per-segment
`{"Language", "Emotion", "Audio Type", "Text"}` row. -/
inductive ResultRecord where
  | overall (emotion : List Char)
  | segment (language emotion audioType text : List Char)
deriving DecidableEq

/-- The external collaborators of one `process_audio_file` run, as opaque
oracles indexed by the loop position of the segment: the whole-file
emotion result, the VAD detections, the ASR result for segment `i`
(`none` models "not a nonempty list", `some t` the `"text"` field of its
first entry), and the per-segment emotion result. -/
structure PipelineEnv where
  overallEmotion : EmotionResult
  vadSegments : List VadSegment
  asr : ℕ → Option (List Char)
  segEmotion : ℕ → EmotionResult

/-- The loop body of lines 76–104 of `src/main.py` for segment `i`: the
record appended for this segment, or `none` when the segment is skipped
(ASR returned no usable list, or fewer than 4 tag fields were parsed). -/
def segmentRecord (env : PipelineEnv) (i : ℕ) : Option ResultRecord :=
  match env.asr i with
  | none => none
  | some textContent =>
    match parseTagString textContent with
    | none => none
    | some tag =>
      some (ResultRecord.segment tag.language (bestLabel (env.segEmotion i))
        tag.audioType tag.text)

/-- All records appended by the segment loop, in VAD detection order. -/
def segmentRecords (env : PipelineEnv) : List ResultRecord :=
  env.vadSegments.enum.filterMap (fun p => segmentRecord env p.1)

/-- Lines 51–104 of `src/main.py`: the `results` list — the overall
emotion record followed by the per-segment records. -/
def processAudioFile (env : PipelineEnv) : List ResultRecord :=
  ResultRecord.overall (bestLabel env.overallEmotion) :: segmentRecords env

/-- A concrete Emotion Annotator output with a tied maximum score: the tie
is broken in favour of the first index. -/
def emotionResultEx : EmotionResult :=
  { labels := ["neutral".data, "happy".data, "sad".data], scores := [1, 3, 3] }

/-- A concrete one-segment run whose tag string carries the emotion-like
field `NEUTRAL` while the per-segment classifier says `happy`. -/
def envLabelEx : PipelineEnv :=
  { overallEmotion := emotionResultEx
    vadSegments := [⟨0, 16000⟩]
    asr := fun _ => some "<|EN|><|NEUTRAL|><|speech|><|withitn|>hello".data
    segEmotion := fun _ => emotionResultEx }

/-- C3: every emotion label placed in the result list is the label at the
first-encountered index of the maximum score of the corresponding
classifier output (ties broken by first index), and the emotion of a
segment record always comes from the per-segment classifier call, not
from the tag fields. -/
theorem emotion_label_first_max :
    (∀ r : EmotionResult, r.scores ≠ [] →
      ∃ j, j < r.scores.length
        ∧ bestLabel r = r.labels.getD j []
        ∧ r.scores.getD j 0 = pyListMax r.scores
        ∧ (∀ k, k < r.scores.length → r.scores.getD k 0 ≤ r.scores.getD j 0)
        ∧ (∀ k, k < j → r.scores.getD k 0 < r.scores.getD j 0))
    ∧ (∀ (env : PipelineEnv) (i : ℕ) (l e a t : List Char),
        segmentRecord env i = some (ResultRecord.segment l e a t) →
          e = bestLabel (env.segEmotion i))
    ∧ (∀ env : PipelineEnv,
        (processAudioFile env).headD (ResultRecord.overall []) =
          ResultRecord.overall (bestLabel env.overallEmotion)) := by
  refine ⟨?_, ?_, fun env => rfl⟩
  · intro r hr
    have hmem := pyListMax_mem r.scores hr
    obtain ⟨hlt, hget, hfirst⟩ := pyIndex_spec r.scores (pyListMax r.scores) hmem
    refine ⟨pyIndex (pyListMax r.scores) r.scores, hlt, rfl, hget, ?_, ?_⟩
    · intro k hk
      rw [hget]
      exact le_pyListMax r.scores hr _ (getD_mem 0 r.scores k hk)
    · intro k hk
      have hle : r.scores.getD k 0 ≤ r.scores.getD (pyIndex (pyListMax r.scores) r.scores) 0 := by
        rw [hget]
        exact le_pyListMax r.scores hr _ (getD_mem 0 r.scores k (lt_trans hk hlt))
      have hne : r.scores.getD k 0 ≠ r.scores.getD (pyIndex (pyListMax r.scores) r.scores) 0 := by
        rw [hget]
        exact hfirst k hk
      exact lt_of_le_of_ne hle hne
  · intro env i l e a t h
    cases hA : env.asr i with
    | none => simp [segmentRecord, hA] at h
    | some txt =>
      cases hP : parseTagString txt with
      | none => simp [segmentRecord, hA, hP] at h
      | some tag =>
        simp only [segmentRecord, hA, hP, Option.some.injEq,
          ResultRecord.segment.injEq] at h
        exact h.2.1.symm

/-- Witness for C3 at the concrete classifier output `[1, 3, 3]` (tied
maximum broken to index 1, label `happy`) and the concrete one-segment
run where the tag field says `NEUTRAL` but the record carries `happy`. -/
theorem emotion_label_first_max_witness :
    (∃ j, j < emotionResultEx.scores.length
      ∧ bestLabel emotionResultEx = emotionResultEx.labels.getD j []
      ∧ emotionResultEx.scores.getD j 0 = pyListMax emotionResultEx.scores
      ∧ (∀ k, k < emotionResultEx.scores.length →
          emotionResultEx.scores.getD k 0 ≤ emotionResultEx.scores.getD j 0)
      ∧ (∀ k, k < j →
          emotionResultEx.scores.getD k 0 < emotionResultEx.scores.getD j 0))
    ∧ "happy".data = bestLabel (envLabelEx.segEmotion 0) :=
  ⟨emotion_label_first_max.1 emotionResultEx (by decide),
   emotion_label_first_max.2.1 envLabelEx 0 "EN".data "happy".data
     "speech".data "hello".data (by decide)⟩

/-- A concrete run in which the VAD detects no speech. -/
def envNoSegments : PipelineEnv :=
  { overallEmotion := { labels := ["neutral".data, "happy".data], scores := [5, 2] }
    vadSegments := []
    asr := fun _ => none
    segEmotion := fun _ => { labels := [], scores := [] } }

/-- A concrete run with two VAD detections, both successfully annotated,
with distinct per-segment classifier labels. -/
def envTwoSegments : PipelineEnv :=
  { overallEmotion := { labels := ["neutral".data, "happy".data], scores := [5, 2] }
    vadSegments := [⟨16000, 48000⟩, ⟨80000, 112000⟩]
    asr := fun i =>
      if i = 0 then some "<|EN|><|HAPPY|><|speech|><|withitn|>first words".data
      else some "<|ZH|><|SAD|><|music|><|woitn|>second words".data
    segEmotion := fun i =>
      if i = 0 then { labels := ["happy".data, "sad".data], scores := [9, 1] }
      else { labels := ["happy".data, "sad".data], scores := [1, 9] } }

/-- C2: the produced result list is non-empty, its element 0 is the overall
emotion record (also with zero detected segments), and elements 1..N are
the segment records in VAD detection order. -/
theorem result_sequence_shape :
    (∀ env : PipelineEnv,
      processAudioFile env =
        ResultRecord.overall (bestLabel env.overallEmotion) :: segmentRecords env)
    ∧ (∀ env : PipelineEnv,
        (processAudioFile env).length = 1 + (segmentRecords env).length)
    ∧ processAudioFile envNoSegments = [ResultRecord.overall "neutral".data]
    ∧ processAudioFile envTwoSegments =
        [ResultRecord.overall "neutral".data,
         ResultRecord.segment "EN".data "happy".data "speech".data "first words".data,
         ResultRecord.segment "ZH".data "sad".data "music".data "second words".data] := by
  refine ⟨fun env => rfl, fun env => by simp [processAudioFile, Nat.add_comm],
    by decide, by decide⟩

/-- A concrete run with two VAD detections where ASR fails on the second
segment (position 1); positions past the loop model an empty transcript. -/
def envOneFail : PipelineEnv :=
  { overallEmotion := { labels := ["neutral".data, "happy".data], scores := [5, 2] }
    vadSegments := [⟨0, 16000⟩, ⟨32000, 64000⟩]
    asr := fun i =>
      if i = 0 then some "<|EN|><|HAPPY|><|speech|><|withitn|>good morning".data
      else if i = 1 then none
      else some []
    segEmotion := fun _ => { labels := ["happy".data, "sad".data], scores := [9, 1] } }

/-- C4: a segment whose ASR call returns no usable transcript (absent
result, or an empty transcript — which parses to fewer than 4 fields) is
skipped with no record, and the remaining segments are still processed:
in the concrete two-segment run with one ASR failure the result list has
length 2. -/
theorem asr_failure_skips_segment :
    (∀ (env : PipelineEnv) (i : ℕ), env.asr i = none → segmentRecord env i = none)
    ∧ (∀ (env : PipelineEnv) (i : ℕ), env.asr i = some [] → segmentRecord env i = none)
    ∧ (processAudioFile envOneFail).length = 2
    ∧ processAudioFile envOneFail =
        [ResultRecord.overall "neutral".data,
         ResultRecord.segment "EN".data "happy".data "speech".data "good morning".data] := by
  refine ⟨?_, ?_, by decide, by decide⟩
  · intro env i h
    simp [segmentRecord, h]
  · intro env i h
    simp only [segmentRecord, h]
    rfl

/-- Witness for C4: in the concrete run, the ASR-failed segment 1 and the
empty-transcript position 2 both yield no record. -/
theorem asr_failure_skips_segment_witness :
    segmentRecord envOneFail 1 = none ∧ segmentRecord envOneFail 2 = none :=
  ⟨asr_failure_skips_segment.1 envOneFail 1 (by decide),
   asr_failure_skips_segment.2.1 envOneFail 2 (by decide)⟩

/-- Python's `int()` applied to a (rational-modelled) float: truncation
toward zero. -/
def pyInt (q : ℚ) : ℤ := if 0 ≤ q then ⌊q⌋ else ⌈q⌉

/-- The effective index of the possibly negative slice bound `i` for a
sequence of length `n` under Python slice semantics: a negative bound
counts from the end; the result is confined to `[0, n]`. -/
def pyBoundIdx (n : ℕ) (i : ℤ) : ℕ :=
  (if i < 0 then max 0 ((n : ℤ) + i) else min i (n : ℤ)).toNat

/-- Python's slice `xs[a:b]` for integer (possibly negative) bounds. -/
def pySlice {α : Type} (xs : List α) (a b : ℤ) : List α :=
  (xs.take (pyBoundIdx xs.length b)).drop (pyBoundIdx xs.length a)

/-- Lines 45–49 of `src/main.py`: `extract_segment` computes
`start_sample = int(start_time * sample_rate)`,
`end_sample = int(end_time * sample_rate)` and returns
`audio[start_sample:end_sample]`. -/
def extract_segment {α : Type} (audio : List α)
    (start_time end_time sample_rate : ℚ) : List α :=
  pySlice audio (pyInt (start_time * sample_rate)) (pyInt (end_time * sample_rate))

/-- Follows the claim's words (C5): a slice whose two bounds are each
clamped into `[0, length]` before slicing. -/
def specClampedSlice {α : Type} (xs : List α) (a b : ℤ) : List α :=
  (xs.take (min (max b 0) (xs.length : ℤ)).toNat).drop
    (min (max a 0) (xs.length : ℤ)).toNat

/-- Follows the claim's words (C6): sample indices computed with rounding
to nearest instead of truncation. -/
def roundedExtractSegment {α : Type} (audio : List α)
    (start_time end_time sample_rate : ℚ) : List α :=
  pySlice audio (round (start_time * sample_rate)) (round (end_time * sample_rate))

theorem take_drop_decomposition {α : Type} (xs : List α) (m k : ℕ) :
    xs.take (min k m) ++ (xs.take m).drop k ++ xs.drop m = xs := by
  rcases le_or_lt k m with h | h
  · rw [min_eq_left h]
    have h1 : xs.take k = (xs.take m).take k := by
      rw [List.take_take, min_eq_left h]
    rw [h1, List.take_append_drop, List.take_append_drop]
  · rw [min_eq_right h.le]
    have h2 : (xs.take m).drop k = [] :=
      List.drop_eq_nil_of_le (le_trans (List.length_take_le m xs) h.le)
    rw [h2, List.append_nil, List.take_append_drop]

theorem drop_min_of_length_le {α : Type} (l : List α) (k n : ℕ)
    (h : l.length ≤ n) : l.drop (min k n) = l.drop k := by
  rcases le_or_lt k n with hk | hk
  · rw [min_eq_left hk]
  · rw [min_eq_right hk.le, List.drop_eq_nil_of_le h,
      List.drop_eq_nil_of_le (le_trans h hk.le)]

theorem pySlice_nonneg {α : Type} (xs : List α) (a b : ℤ)
    (ha : 0 ≤ a) (hb : 0 ≤ b) :
    pySlice xs a b = (xs.drop a.toNat).take (b.toNat - a.toNat) := by
  have hmb : pyBoundIdx xs.length b = min b.toNat xs.length := by
    rw [pyBoundIdx, if_neg (not_lt.mpr hb)]; omega
  have hma : pyBoundIdx xs.length a = min a.toNat xs.length := by
    rw [pyBoundIdx, if_neg (not_lt.mpr ha)]; omega
  rw [pySlice, hma, hmb]
  have ht : xs.take (min b.toNat xs.length) = xs.take b.toNat := by
    rw [← List.take_take, List.take_length]
  rw [ht, drop_min_of_length_le _ _ _ (by rw [List.length_take]; omega),
    List.drop_take]

/-- C5 counterexample: for the buffer `[10, 11, 12, 13]` and the range
`(-1, 2)` at rate 1, `extract_segment` returns `[]` (Python interprets
the negative start sample as an offset from the end of the buffer), while
clamping the start sample to the buffer as the claim states would return
`[10, 11]`. -/
theorem clamp_semantics_counterexample :
    extract_segment ([10, 11, 12, 13] : List ℚ) (-1) 2 1 = []
    ∧ specClampedSlice ([10, 11, 12, 13] : List ℚ) (-1) 2 = [10, 11]
    ∧ extract_segment ([10, 11, 12, 13] : List ℚ) (-1) 2 1 ≠
        specClampedSlice ([10, 11, 12, 13] : List ℚ)
          (pyInt ((-1) * 1)) (pyInt (2 * 1)) := by
  have h1 : pyInt ((-1 : ℚ) * 1) = -1 := by
    rw [mul_one, pyInt, if_neg (by norm_num),
      show ((-1 : ℚ)) = ((-1 : ℤ) : ℚ) by norm_num, Int.ceil_intCast]
  have h2 : pyInt ((2 : ℚ) * 1) = 2 := by
    rw [mul_one, pyInt, if_pos (by norm_num),
      show ((2 : ℚ)) = ((2 : ℤ) : ℚ) by norm_num, Int.floor_intCast]
  refine ⟨?_, by decide, ?_⟩
  · rw [extract_segment, h1, h2]; decide
  · rw [extract_segment, h1, h2]; decide

/-- C5 amended: the extracted slice is always an in-bounds contiguous part
of the buffer (never an out-of-bounds read); for nonnegative computed
sample indices the code agrees with the claimed clamping, so an end
beyond the buffer length is truncated to the buffer; only a negative
start (or end) sample deviates from the claim, being interpreted as an
offset from the end of the buffer. -/
theorem slice_in_bounds {α : Type} :
    ∀ (audio : List α) (s e r : ℚ),
      (∃ u v, u ++ extract_segment audio s e r ++ v = audio)
      ∧ (0 ≤ pyInt (s * r) → 0 ≤ pyInt (e * r) →
          extract_segment audio s e r =
            specClampedSlice audio (pyInt (s * r)) (pyInt (e * r)))
      ∧ (0 ≤ pyInt (s * r) → (audio.length : ℤ) ≤ pyInt (e * r) →
          extract_segment audio s e r = audio.drop (pyInt (s * r)).toNat) := by
  intro audio s e r
  refine ⟨?_, ?_, ?_⟩
  · exact ⟨audio.take (min (pyBoundIdx audio.length (pyInt (s * r)))
        (pyBoundIdx audio.length (pyInt (e * r)))),
      audio.drop (pyBoundIdx audio.length (pyInt (e * r))),
      take_drop_decomposition audio _ _⟩
  · intro ha hb
    rw [extract_segment, pySlice, specClampedSlice, pyBoundIdx, pyBoundIdx,
      if_neg (not_lt.mpr ha), if_neg (not_lt.mpr hb),
      max_eq_left ha, max_eq_left hb]
  · intro ha hb
    have hb0 : ¬ pyInt (e * r) < 0 := by omega
    rw [extract_segment, pySlice, pyBoundIdx, pyBoundIdx,
      if_neg (not_lt.mpr ha), if_neg hb0, min_eq_right hb,
      Int.toNat_natCast, List.take_length]
    rcases le_or_lt (pyInt (s * r)) (audio.length : ℤ) with h | h
    · rw [min_eq_left h]
    · rw [min_eq_right h.le, Int.toNat_natCast, List.drop_length,
        List.drop_eq_nil_of_le (by omega)]

/-- Witness for C5 amended, at the buffer `[7, 8]` with range `(0, 5)` at
rate 1: the computed samples are nonnegative, the end sample 5 exceeds
the length 2, and the slice is truncated to the whole buffer. -/
theorem slice_in_bounds_witness :
    (0 : ℤ) ≤ pyInt ((0 : ℚ) * 1) ∧ (([7, 8] : List ℚ).length : ℤ) ≤ pyInt ((5 : ℚ) * 1)
    ∧ extract_segment ([7, 8] : List ℚ) 0 5 1 =
        ([7, 8] : List ℚ).drop (pyInt ((0 : ℚ) * 1)).toNat := by
  have h0 : pyInt ((0 : ℚ) * 1) = 0 := by
    rw [mul_one, pyInt, if_pos le_rfl, Int.floor_zero]
  have h5 : pyInt ((5 : ℚ) * 1) = 5 := by
    rw [mul_one, pyInt, if_pos (by norm_num),
      show ((5 : ℚ)) = ((5 : ℤ) : ℚ) by norm_num, Int.floor_intCast]
  refine ⟨by rw [h0], by rw [h5]; decide, ?_⟩
  exact (slice_in_bounds ([7, 8] : List ℚ) 0 5 1).2.2
    (by rw [h0]) (by rw [h5]; decide)

/-- C6 counterexample: at time 3/5 s and rate 1 Hz the code truncates
`int(0.6) = 0` while rounding to nearest gives 1, so `extract_segment`
on `[10, 11, 12]` returns `[10, 11]` where the claimed rounding
behaviour would return `[11]`. -/
theorem round_vs_truncate_counterexample :
    extract_segment ([10, 11, 12] : List ℚ) (3/5) 2 1 = [10, 11]
    ∧ roundedExtractSegment ([10, 11, 12] : List ℚ) (3/5) 2 1 = [11]
    ∧ extract_segment ([10, 11, 12] : List ℚ) (3/5) 2 1 ≠
        roundedExtractSegment ([10, 11, 12] : List ℚ) (3/5) 2 1 := by
  have h1 : pyInt ((3 / 5 : ℚ) * 1) = 0 := by
    rw [mul_one, pyInt, if_pos (by norm_num)]
    norm_num
  have h2 : pyInt ((2 : ℚ) * 1) = 2 := by
    rw [mul_one, pyInt, if_pos (by norm_num),
      show ((2 : ℚ)) = ((2 : ℤ) : ℚ) by norm_num, Int.floor_intCast]
  have h3 : round ((3 / 5 : ℚ) * 1) = 1 := by
    rw [mul_one, round_eq]
    norm_num
  have h4 : round ((2 : ℚ) * 1) = 2 := by
    rw [mul_one, round_eq]
    norm_num
  refine ⟨?_, ?_, ?_⟩
  · rw [extract_segment, h1, h2]; decide
  · rw [roundedExtractSegment, h3, h4]; decide
  · rw [extract_segment, roundedExtractSegment, h1, h2, h3, h4]; decide

/-- C6 amended: the sample indices are computed with `int(t * r)` —
truncation toward zero, which is the floor for nonnegative values — and
the result is the half-open sample window `[start_sample, end_sample)` of
the buffer (the `take` truncating it at the buffer length). -/
theorem truncating_half_open_slice {α : Type} :
    ∀ (audio : List α) (s e r : ℚ), 0 ≤ s * r → 0 ≤ e * r →
      pyInt (s * r) = ⌊s * r⌋
      ∧ extract_segment audio s e r =
          (audio.drop (pyInt (s * r)).toNat).take
            ((pyInt (e * r)).toNat - (pyInt (s * r)).toNat) := by
  intro audio s e r hs he
  refine ⟨by rw [pyInt, if_pos hs], ?_⟩
  exact pySlice_nonneg audio _ _
    (by rw [pyInt, if_pos hs]; exact Int.floor_nonneg.mpr hs)
    (by rw [pyInt, if_pos he]; exact Int.floor_nonneg.mpr he)

/-- Witness for C6 amended at buffer `[7, 8, 9]`, times 1 s and 2 s,
rate 1 Hz. -/
theorem truncating_half_open_slice_witness :
    (0 : ℚ) ≤ 1 * 1 ∧ (0 : ℚ) ≤ 2 * 1
    ∧ pyInt ((1 : ℚ) * 1) = ⌊(1 : ℚ) * 1⌋
    ∧ extract_segment ([7, 8, 9] : List ℚ) 1 2 1 =
        (([7, 8, 9] : List ℚ).drop (pyInt ((1 : ℚ) * 1)).toNat).take
          ((pyInt ((2 : ℚ) * 1)).toNat - (pyInt ((1 : ℚ) * 1)).toNat) := by
  refine ⟨by norm_num, by norm_num, ?_, ?_⟩
  · exact (truncating_half_open_slice ([7, 8, 9] : List ℚ) 1 2 1
      (by norm_num) (by norm_num)).1
  · exact (truncating_half_open_slice ([7, 8, 9] : List ℚ) 1 2 1
      (by norm_num) (by norm_num)).2

/-- Lines 68–71 of `src/main.py`: the orchestrator converts the VAD's
integer sample indices to seconds (`segment['start'] / 16000`) and calls
`extract_segment` with sample rate 16000. -/
def orchestratorSlice {α : Type} (audio : List α) (seg : VadSegment) : List α :=
  extract_segment audio ((seg.start : ℚ) / 16000) ((seg.stop : ℚ) / 16000) 16000

theorem pyInt_natCast (n : ℕ) : pyInt ((n : ℚ)) = n := by
  rw [pyInt, if_pos (by positivity)]
  exact Int.floor_natCast n

/-- C10: dividing the VAD's integer sample indices by 16000 and
multiplying back by 16000 round-trips exactly under rational arithmetic,
so the orchestrator's slice is exactly `audio[start:end]`. -/
theorem sample_roundtrip_identity {α : Type} :
    ∀ (audio : List α) (seg : VadSegment),
      pyInt ((seg.start : ℚ) / 16000 * 16000) = seg.start
      ∧ pyInt ((seg.stop : ℚ) / 16000 * 16000) = seg.stop
      ∧ orchestratorSlice audio seg = pySlice audio seg.start seg.stop
      ∧ orchestratorSlice audio seg =
          (audio.drop seg.start).take (seg.stop - seg.start) := by
  intro audio seg
  have hs : ((seg.start : ℚ) / 16000 * 16000) = (seg.start : ℚ) :=
    div_mul_cancel₀ _ (by norm_num)
  have he : ((seg.stop : ℚ) / 16000 * 16000) = (seg.stop : ℚ) :=
    div_mul_cancel₀ _ (by norm_num)
  have h1 : pyInt ((seg.start : ℚ) / 16000 * 16000) = seg.start := by
    rw [hs, pyInt_natCast]
  have h2 : pyInt ((seg.stop : ℚ) / 16000 * 16000) = seg.stop := by
    rw [he, pyInt_natCast]
  have h3 : orchestratorSlice audio seg = pySlice audio seg.start seg.stop := by
    rw [orchestratorSlice, extract_segment, h1, h2]
  refine ⟨h1, h2, h3, ?_⟩
  rw [h3, pySlice_nonneg audio _ _ (by positivity) (by positivity)]
  simp

/-- The extension the cleanup loop matches (`file.endswith('.wav')`). -/
def wavSuffix : List Char := ".wav".data

/-- The name of the durable result artifact, `output_results.json`. -/
def resultsFileName : List Char := "output_results.json".data

/-- Lines 111–113 of `src/main.py`: the condition under which the cleanup
loop removes a file from the results folder. -/
def isRemovedByCleanup (f : List Char) : Bool :=
  wavSuffix.isSuffixOf f && !(f == resultsFileName)

/-- Lines 111–113 of `src/main.py`: the contents of the results folder
after the cleanup loop has run over it. -/
def cleanup (files : List (List Char)) : List (List Char) :=
  files.filter (fun f => !(isRemovedByCleanup f))

/-- C7: cleanup removes exactly the files matched by the `.wav` extension
convention (never the durable `output_results.json`), and running it a
second time removes nothing further. -/
theorem cleanup_idempotent_scoped :
    (∀ files, cleanup (cleanup files) = cleanup files)
    ∧ (∀ files f, f ∈ cleanup files ↔ (f ∈ files ∧ isRemovedByCleanup f = false))
    ∧ (∀ files f, f ∈ files → f ∉ cleanup files → wavSuffix.isSuffixOf f = true)
    ∧ (∀ files, resultsFileName ∈ files → resultsFileName ∈ cleanup files) := by
  have hmem : ∀ files f, f ∈ cleanup files ↔
      (f ∈ files ∧ isRemovedByCleanup f = false) := by
    intro files f
    simp [cleanup, List.mem_filter]
  refine ⟨?_, hmem, ?_, ?_⟩
  · intro files
    simp only [cleanup, List.filter_filter]
    simp
  · intro files f hf hnf
    have hr : isRemovedByCleanup f = true := by
      cases hcase : isRemovedByCleanup f with
      | true => rfl
      | false => exact absurd ((hmem files f).mpr ⟨hf, hcase⟩) hnf
    have := hr
    rw [isRemovedByCleanup, Bool.and_eq_true] at this
    exact this.1
  · intro files h
    exact (hmem files resultsFileName).mpr ⟨h, by decide⟩

/-- A concrete results folder holding one transient segment artifact and
the durable artifact. -/
def resultsFolderEx : List (List Char) :=
  ["upload_segment_1_0.00-1.00.wav".data, resultsFileName]

/-- Witness for C7 at the concrete results folder: the durable artifact
survives cleanup and the removed file carries the `.wav` extension. -/
theorem cleanup_idempotent_scoped_witness :
    resultsFileName ∈ cleanup resultsFolderEx
    ∧ wavSuffix.isSuffixOf "upload_segment_1_0.00-1.00.wav".data = true :=
  ⟨cleanup_idempotent_scoped.2.2.2 resultsFolderEx (by decide),
   cleanup_idempotent_scoped.2.2.1 resultsFolderEx
     "upload_segment_1_0.00-1.00.wav".data (by decide) (by decide)⟩

/-- Lines 106–108 of `src/main.py`: `open(result_file_path, 'w')`
truncates the durable artifact immediately; `json.dump` then streams the
serialized chunks into the file. A failure of the write after `k` chunks
(`failAt = some k`, the failure injected for the external disk) aborts
the run with the first `k` chunks on disk; the previous contents `prior`
are discarded by the truncating open. Returns (write succeeded, final
file contents). -/
def writeDurableArtifact {α : Type} (prior newChunks : List α)
    (failAt : Option ℕ) : Bool × List α :=
  match prior, failAt with
  | _, none => (true, newChunks)
  | _, some k => (false, newChunks.take k)

/-- C8 counterexample: a write of two chunks over the prior contents `[7]`
failing after one chunk leaves `[1]` on disk — neither the prior artifact
nor a complete new one, so a failed run does leave a partial artifact. -/
theorem write_failure_partial_counterexample :
    (writeDurableArtifact ([7] : List ℕ) [1, 2] (some 1)).1 = false
    ∧ (writeDurableArtifact ([7] : List ℕ) [1, 2] (some 1)).2 = [1]
    ∧ (writeDurableArtifact ([7] : List ℕ) [1, 2] (some 1)).2 ≠ [7]
    ∧ (writeDurableArtifact ([7] : List ℕ) [1, 2] (some 1)).2 ≠ [1, 2] :=
  ⟨rfl, rfl, by decide, by decide⟩

/-- C8 amended: the artifact write is not atomic — a failure after `k`
chunks leaves exactly the first `k` chunks of the new serialization, the
prior contents never survive once the write begins (the file contents
are independent of them), and only a fully successful write leaves a
complete artifact. -/
theorem write_failure_leaves_truncated {α : Type} :
    ∀ (prior newChunks : List α) (k : ℕ),
      writeDurableArtifact prior newChunks none = (true, newChunks)
      ∧ writeDurableArtifact prior newChunks (some k) = (false, newChunks.take k)
      ∧ ∀ (prior' : List α) (failAt : Option ℕ),
          (writeDurableArtifact prior newChunks failAt).2 =
            (writeDurableArtifact prior' newChunks failAt).2 := by
  intro prior newChunks k
  refine ⟨rfl, rfl, ?_⟩
  intro prior' failAt
  cases failAt <;> rfl

/-- The final state of one `process_audio_file(audio_file)` call: the
Python function's return value, the durable artifact contents (the
serialized `results` list) and the results-folder file list after the
cleanup loop. -/
structure RunOutcome where
  returned : Option (List ResultRecord)
  artifact : List ResultRecord
  resultsFolder : List (List Char)
deriving DecidableEq

/-- Lines 51–113 of `src/main.py` end to end: build the results list,
persist it, clean up the transient `.wav` artifacts, and fall off the
end of the function body — there is no `return` statement, so the call
returns `None`. `files` is the results-folder contents just before the
cleanup loop. -/
def processAudioFileRun (env : PipelineEnv) (files : List (List Char)) :
    RunOutcome :=
  { returned := none
    artifact := processAudioFile env
    resultsFolder := cleanup files }

/-- C9 counterexample: on the concrete two-segment run the pipeline entry
point returns `None`, not the result sequence it built and persisted. -/
theorem run_returns_none_counterexample :
    (processAudioFileRun envTwoSegments []).returned = none
    ∧ (processAudioFileRun envTwoSegments []).returned ≠
        some (processAudioFile envTwoSegments) :=
  ⟨rfl, by simp [processAudioFileRun]⟩

/-- C9 amended: `process_audio_file` returns `None` for every run — the
result sequence is available to callers only through the persisted
durable artifact, which holds exactly the list the run built. -/
theorem run_return_value :
    ∀ (env : PipelineEnv) (files : List (List Char)),
      (processAudioFileRun env files).returned = none
      ∧ (processAudioFileRun env files).artifact = processAudioFile env
      ∧ (processAudioFileRun env files).resultsFolder = cleanup files :=
  fun _ _ => ⟨rfl, rfl, rfl⟩

end EmoRec
